import Mathlib

/-!
# Verification of the Credence bond contract (credence_bond crate)

Shallow embedding of `contracts/credence_bond/src` (Rust / Soroban) in Lean 4.

Modelling conventions:
* `i128` values are `Int` with explicit range checks (`I128_MIN`/`I128_MAX`);
  `u64`/`u32` values are `Nat` with explicit bounds (`U64_MAX`/`U32_MAX`).
* Rust `checked_add`/`checked_sub`/`checked_mul` become `Option`-valued helpers;
  unchecked arithmetic on machine integers is modelled as trapping on overflow
  (Soroban contracts are compiled with overflow checks enabled, and a panic
  aborts the whole invocation).
* Rust integer division `/` on `i128` truncates toward zero: `Int.tdiv`.
* `saturating_add`/`saturating_sub` on `u64` become explicit `min`/`Nat`
  subtraction.
* Entry points take contract storage (and the ledger timestamp `now`) and
  return `Except CErr (result × storage)`.  A returned error corresponds to a
  Rust panic, which aborts the invocation and discards every storage write
  (spec §5: no partial commits), so callers observe the pre-call storage on
  error.
* Addresses are opaque; they are modelled as `Nat` with decidable equality.
-/

namespace Credence

/-- Largest `i128` value, `2^127 - 1`. -/
def I128_MAX : Int := 170141183460469231731687303715884105727

/-- Smallest `i128` value, `-2^127`. -/
def I128_MIN : Int := -170141183460469231731687303715884105728

/-- Largest `u64` value, `2^64 - 1`. -/
def U64_MAX : Nat := 18446744073709551615

/-- Largest `u32` value, `2^32 - 1`. -/
def U32_MAX : Nat := 4294967295

/-- Rust `i128::checked_add`: `some` iff the mathematical sum is representable. -/
def checkedAddI128 (a b : Int) : Option Int :=
  if I128_MIN ≤ a + b ∧ a + b ≤ I128_MAX then some (a + b) else none

/-- Rust `i128::checked_sub`: `some` iff the mathematical difference is representable. -/
def checkedSubI128 (a b : Int) : Option Int :=
  if I128_MIN ≤ a - b ∧ a - b ≤ I128_MAX then some (a - b) else none

/-- Rust `i128::checked_mul`: `some` iff the mathematical product is representable. -/
def checkedMulI128 (a b : Int) : Option Int :=
  if I128_MIN ≤ a * b ∧ a * b ≤ I128_MAX then some (a * b) else none

/-- Rust `u64::saturating_add`. -/
def satAddU64 (a b : Nat) : Nat := min (a + b) U64_MAX

/-- Errors.  Each constructor corresponds to one `panic!`/`expect` message in
the source (the message is given in the comment), or to a trap raised by the
platform (token / unchecked machine arithmetic). -/
inductive CErr where
  /-- Panic message "amount must be non-negative" -/
  | amountNegative
  /-- Panic message "token not set" -/
  | tokenNotSet
  /-- the external token contract traps (e.g. on a negative transfer amount) -/
  | tokenTrap
  /-- Panic message "no bond" -/
  | noBond
  /-- Panic message "no admin" / "not initialized" -/
  | noAdmin
  /-- Panic message "not admin" -/
  | notAdmin
  /-- Panic message "bond not active" -/
  | bondNotActive
  /-- Panic message "slash exceeds bond" -/
  | slashExceedsBond
  /-- Panic message "lock-up period not elapsed; use withdraw_early" -/
  | lockupNotElapsed
  /-- Panic message "cooldown window not elapsed; request_withdrawal first" -/
  | cooldownNotElapsed
  /-- Panic message "use withdraw for post lock-up" -/
  | postLockup
  /-- Panic message "insufficient balance for withdrawal" -/
  | insufficientBalance
  /-- Panic message "slashed amount exceeds bonded amount" (checked_sub / re-validation) -/
  | slashedExceedsBonded
  /-- Panic message "withdrawal caused underflow" -/
  | withdrawalUnderflow
  /-- Panic message "top-up caused overflow" -/
  | topUpOverflow
  /-- Panic message "duration extension caused overflow" -/
  | durationOverflow
  /-- Panic message "bond end timestamp would overflow" -/
  | endTimestampOverflow
  /-- Panic message "early exit config not set" / "early exit penalty bps not set" -/
  | earlyExitConfigNotSet
  /-- Panic message "penalty exceeds amount" -/
  | penaltyExceedsAmount
  /-- Panic message "fee pool overflow" -/
  | feePoolOverflow
  /-- trap of an unchecked machine-integer operation (overflow checks on) -/
  | arithmeticTrap
  /-- Panic message "invalid nonce: replay or out-of-order" -/
  | nonceReplay
  /-- Panic message "nonce overflow" -/
  | nonceOverflow
  /-- Panic message "proposal not found" -/
  | proposalNotFound
  /-- Panic message "proposal not open for voting" -/
  | proposalNotOpen
  /-- Panic message "governance not initialized" -/
  | govNotInitialized
  /-- Panic message "not a governor or delegate" -/
  | notGovernorOrDelegate
  /-- Panic message "already voted" -/
  | alreadyVoted
deriving DecidableEq, Repr

/-! ## `tiered_bond.rs` -/

/-- Models `BondTier` (lib.rs): identity tier based on bonded amount. -/
inductive BondTier where
  | Bronze
  | Silver
  | Gold
  | Platinum
deriving DecidableEq, Repr

def TIER_BRONZE_MAX : Int := 1000000000

def TIER_SILVER_MAX : Int := 5000000000

def TIER_GOLD_MAX : Int := 20000000000

/-- Models `tiered_bond::get_tier_for_amount`. -/
def get_tier_for_amount (amount : Int) : BondTier :=
  if amount < TIER_BRONZE_MAX then BondTier.Bronze
  else if amount < TIER_SILVER_MAX then BondTier.Silver
  else if amount < TIER_GOLD_MAX then BondTier.Gold
  else BondTier.Platinum

/-! ## `early_exit_penalty.rs` -/

/-- Models `early_exit_penalty::calculate_penalty`.
Source:
`let base = amount.checked_mul(penalty_bps as i128).unwrap_or(0) / 10_000;`
`let penalty = (base * (remaining_time as i128)) / (total_duration as i128);`
The first multiplication falls back to `0` on overflow (`unwrap_or(0)`); the
second multiplication is unchecked and traps on overflow (`none`).  `i128`
division truncates toward zero (`Int.tdiv`). -/
def calculate_penalty (amount : Int) (remaining_time total_duration : Nat)
    (penalty_bps : Nat) : Option Int :=
  if total_duration = 0 ∨ penalty_bps = 0 then some 0
  else
    match checkedMulI128
        (Int.tdiv ((checkedMulI128 amount (penalty_bps : Int)).getD 0) 10000)
        (remaining_time : Int) with
    | none => none
    | some p => some (Int.tdiv p (total_duration : Int))

/-! ## `fees.rs` -/

/-- Models `fees::calculate_fee`, with the stored fee config passed explicitly
(`fee_bps` is the value of `DataKey::FeeBps`, default `0`).
Source: `let fee = (amount * (fee_bps as i128)) / 10_000;` (unchecked multiply,
modelled as trapping on overflow) then
`let net = amount.checked_sub(fee).expect("fee calculation underflow")`. -/
def calculate_fee (fee_bps : Nat) (amount : Int) : Option (Int × Int) :=
  if fee_bps = 0 ∨ amount ≤ 0 then some (0, amount)
  else
    match checkedMulI128 amount (fee_bps : Int) with
    | none => none
    | some p =>
      match checkedSubI128 amount (Int.tdiv p 10000) with
      | none => none
      | some net => some (Int.tdiv p 10000, net)

/-! ## `rolling_bond.rs` -/

/-- Models `rolling_bond::is_period_ended`:
`let end = bond_start.saturating_add(bond_duration); now >= end`. -/
def is_period_ended (now bond_start bond_duration : Nat) : Bool :=
  satAddU64 bond_start bond_duration ≤ now

/-- Models `rolling_bond::can_withdraw_after_notice`. -/
def can_withdraw_after_notice (now withdrawal_requested_at notice_period_duration : Nat) :
    Bool :=
  if withdrawal_requested_at = 0 then false
  else satAddU64 withdrawal_requested_at notice_period_duration ≤ now

/-! ## `nonce.rs` -/

/-- Models `nonce::consume_nonce`, acting on the stored per-identity counter
(`DataKey::Nonce(identity)`, read with default `0`).  Returns the new stored
value.  Source: mismatch panics "invalid nonce: replay or out-of-order";
then `current.checked_add(1).expect("nonce overflow")`. -/
def consume_nonce (stored expected : Nat) : Except CErr Nat :=
  if stored ≠ expected then Except.error CErr.nonceReplay
  else if stored + 1 > U64_MAX then Except.error CErr.nonceOverflow
  else Except.ok (stored + 1)

/-! ## `weighted_attestation.rs` and `types/attestation.rs` -/

/-- Models `types::attestation::MAX_ATTESTATION_WEIGHT`. -/
def MAX_ATTESTATION_WEIGHT : Nat := 1000000

/-- Models `types::attestation::DEFAULT_ATTESTATION_WEIGHT`. -/
def DEFAULT_ATTESTATION_WEIGHT : Nat := 1

/-- Models `weighted_attestation::DEFAULT_WEIGHT_MULTIPLIER_BPS`. -/
def DEFAULT_WEIGHT_MULTIPLIER_BPS : Nat := 100

/-- Models `weighted_attestation::DEFAULT_MAX_WEIGHT`. -/
def DEFAULT_MAX_WEIGHT : Nat := 100000

/-- Models `weighted_attestation::compute_weight`, with the attester's stored stake
and the weight config passed explicitly.  Source:
`if stake <= 0 { return DEFAULT_ATTESTATION_WEIGHT; }`
`let stake_u64 = stake.unsigned_abs() as u64;` (truncating cast, mod `2^64`)
`let w = (stake_u64 * (multiplier_bps as u64) / 10_000) as u32;` (the `u64`
multiply is unchecked — trap on overflow — and the cast to `u32` truncates
mod `2^32`)
`let capped = min(w, max_weight); min(capped, MAX).max(DEFAULT)`. -/
def compute_weight (stake : Int) (multiplier_bps max_weight : Nat) : Option Nat :=
  if stake ≤ 0 then some DEFAULT_ATTESTATION_WEIGHT
  else if stake.natAbs % (U64_MAX + 1) * multiplier_bps > U64_MAX then none
  else
    some (max (min (min (stake.natAbs % (U64_MAX + 1) * multiplier_bps / 10000 % (U32_MAX + 1))
          max_weight) MAX_ATTESTATION_WEIGHT) DEFAULT_ATTESTATION_WEIGHT)

/-! ## Bond data model and contract storage (`lib.rs`) -/

/-- Models `IdentityBond` (lib.rs).  `i128` fields are `Int`, `u64` fields are `Nat`,
the address is opaque (`Nat`). -/
structure IdentityBond where
  identity : Nat
  bonded_amount : Int
  bond_start : Nat
  bond_duration : Nat
  slashed_amount : Int
  active : Bool
  is_rolling : Bool
  withdrawal_requested_at : Nat
  notice_period_duration : Nat
deriving DecidableEq, Repr

/-- Models `rolling_bond::apply_renewal`: set `bond_start` to `new_start` and reset
`withdrawal_requested_at` to `0`; every other field is untouched. -/
def apply_renewal (bond : IdentityBond) (new_start : Nat) : IdentityBond :=
  { bond with bond_start := new_start, withdrawal_requested_at := 0 }

/-- The contract's instance storage: the singleton keys used by the bond
entry points (`DataKey::Admin`, `DataKey::Bond`, `DataKey::Token`,
`DataKey::FeeTreasury`, `DataKey::FeeBps`, the early-exit config
(`"treasury"`/`"early_exit_penalty_bps"` symbols), the fee pool
(`"fees"` symbol), the reentrancy lock (`"lock"` symbol) and the registered
callback (`"callback"` symbol)).  `none` = key absent. -/
structure Storage where
  admin : Option Nat := none
  bond : Option IdentityBond := none
  token : Option Nat := none
  feeTreasury : Option Nat := none
  feeBps : Option Nat := none
  eepTreasury : Option Nat := none
  eepBps : Option Nat := none
  fees : Option Int := none
  lock : Option Bool := none
  callback : Option Nat := none
deriving DecidableEq, Repr

/-- External value-transfer collaborator (spec §6).  The token contract is not
part of this repository; it is the Soroban token interface
(`soroban_sdk::token::TokenClient`), whose `transfer`/`transfer_from` entry
points trap on a negative amount.  Balances are not tracked (no claim is about
token balances), so a transfer of a non-negative amount succeeds. -/
def tokenTransferOk (amount : Int) : Bool := 0 ≤ amount

/-- Models `CredenceBond::initialize` (lib.rs:127): unconditionally stores the given
address under `DataKey::Admin`; no authorization, no already-initialized
check.  (The source name is a Lean keyword, hence the rename.) -/
def init_admin (s : Storage) (admin : Nat) : Except CErr Storage :=
  Except.ok { s with admin := some admin }

/-- Models `CredenceBond::create_bond` = `create_bond_with_rolling` (lib.rs:190,209).
`now` is the ledger timestamp.  Follows the source order: non-negativity
check, token lookup, `transfer_from`, end-timestamp overflow check, fee
calculation, fee recording (`fees::record_fee`, only when `fee > 0` and a
treasury is configured), store the new bond. -/
def create_bond (now : Nat) (s : Storage) (identity : Nat) (amount : Int)
    (duration : Nat) (is_rolling : Bool) (notice_period_duration : Nat) :
    Except CErr (IdentityBond × Storage) :=
  if amount < 0 then Except.error CErr.amountNegative
  else match s.token with
  | none => Except.error CErr.tokenNotSet
  | some _ =>
    if ¬ tokenTransferOk amount then Except.error CErr.tokenTrap
    else if now + duration > U64_MAX then Except.error CErr.endTimestampOverflow
    else match calculate_fee (s.feeBps.getD 0) amount with
    | none => Except.error CErr.arithmeticTrap
    | some (fee, net_amount) =>
      match (if fee > 0 then
          match s.feeTreasury with
          | some _ =>
            match checkedAddI128 (s.fees.getD 0) fee with
            | none => Except.error CErr.feePoolOverflow
            | some nf => Except.ok { s with fees := some nf }
          | none => Except.ok s
        else Except.ok s : Except CErr Storage) with
      | Except.error e => Except.error e
      | Except.ok s1 =>
        let bond : IdentityBond :=
          { identity := identity, bonded_amount := net_amount, bond_start := now,
            bond_duration := duration, slashed_amount := 0, active := true,
            is_rolling := is_rolling, withdrawal_requested_at := 0,
            notice_period_duration := notice_period_duration }
        Except.ok (bond, { s1 with bond := some bond })

/-- Models `CredenceBond::top_up` (lib.rs:727).  The overflow check precedes the
token `transfer_from` (CEI); the external token traps on negative amounts. -/
def top_up (s : Storage) (amount : Int) : Except CErr (IdentityBond × Storage) :=
  match s.bond with
  | none => Except.error CErr.noBond
  | some bond =>
    match checkedAddI128 bond.bonded_amount amount with
    | none => Except.error CErr.topUpOverflow
    | some new_bonded =>
      match s.token with
      | none => Except.error CErr.tokenNotSet
      | some _ =>
        if ¬ tokenTransferOk amount then Except.error CErr.tokenTrap
        else
          let b2 := { bond with bonded_amount := new_bonded }
          Except.ok (b2, { s with bond := some b2 })

/-- Models `CredenceBond::withdraw_bond` (lib.rs:443); `withdraw` (lib.rs:433) is an
alias for it.  Temporal gate: rolling bonds need a prior withdrawal request
and an elapsed notice period; non-rolling bonds need
`now ≥ bond_start.saturating_add(bond_duration)`.  Then
`available = bonded_amount.checked_sub(slashed_amount)`, balance check, token
`transfer`, `bonded_amount.checked_sub(amount)`, and the clamp
`if slashed_amount > bonded_amount then slashed_amount = bonded_amount`.
`withdraw_gate` is the temporal gate (lib.rs:454-467, the early panics);
`withdraw_bond` is the whole entry point. -/
def withdraw_gate (now : Nat) (bond : IdentityBond) : Except CErr Unit :=
  if bond.is_rolling then
    if bond.withdrawal_requested_at = 0 then Except.error CErr.cooldownNotElapsed
    else if ¬ can_withdraw_after_notice now bond.withdrawal_requested_at
             bond.notice_period_duration then
      Except.error CErr.cooldownNotElapsed
    else Except.ok ()
  else if now < satAddU64 bond.bond_start bond.bond_duration then
    Except.error CErr.lockupNotElapsed
  else Except.ok ()

def withdraw_bond (now : Nat) (s : Storage) (amount : Int) :
    Except CErr (IdentityBond × Storage) :=
  match s.bond with
  | none => Except.error CErr.noBond
  | some bond =>
    match withdraw_gate now bond with
    | Except.error e => Except.error e
    | Except.ok _ =>
      match checkedSubI128 bond.bonded_amount bond.slashed_amount with
      | none => Except.error CErr.slashedExceedsBonded
      | some available =>
        if amount > available then Except.error CErr.insufficientBalance
        else match s.token with
        | none => Except.error CErr.tokenNotSet
        | some _ =>
          if ¬ tokenTransferOk amount then Except.error CErr.tokenTrap
          else match checkedSubI128 bond.bonded_amount amount with
          | none => Except.error CErr.withdrawalUnderflow
          | some nb =>
            let ns := if bond.slashed_amount > nb then nb else bond.slashed_amount
            let b2 := { bond with bonded_amount := nb, slashed_amount := ns }
            Except.ok (b2, { s with bond := some b2 })

/-- Models `CredenceBond::withdraw_early` (lib.rs:504).  Valid only before lock-up
end; requires the early-exit config; computes the penalty from
`remaining = end.saturating_sub(now)`; transfers `amount - penalty` to the
identity and `penalty` (when positive) to the treasury; decrements
`bonded_amount` and re-validates `slashed_amount ≤ bonded_amount` (panicking,
not clamping). -/
def withdraw_early (now : Nat) (s : Storage) (amount : Int) :
    Except CErr (IdentityBond × Storage) :=
  match s.bond with
  | none => Except.error CErr.noBond
  | some bond =>
    let endT := satAddU64 bond.bond_start bond.bond_duration
    if endT ≤ now then Except.error CErr.postLockup
    else match checkedSubI128 bond.bonded_amount bond.slashed_amount with
    | none => Except.error CErr.slashedExceedsBonded
    | some available =>
      if amount > available then Except.error CErr.insufficientBalance
      else match s.eepTreasury, s.eepBps with
      | some _, some penalty_bps =>
        match calculate_penalty amount (endT - now) bond.bond_duration penalty_bps with
        | none => Except.error CErr.arithmeticTrap
        | some penalty =>
          match s.token with
          | none => Except.error CErr.tokenNotSet
          | some _ =>
            match checkedSubI128 amount penalty with
            | none => Except.error CErr.penaltyExceedsAmount
            | some net_amount =>
              if ¬ tokenTransferOk net_amount then Except.error CErr.tokenTrap
              else if penalty > 0 ∧ ¬ tokenTransferOk penalty then
                Except.error CErr.tokenTrap
              else match checkedSubI128 bond.bonded_amount amount with
              | none => Except.error CErr.withdrawalUnderflow
              | some nb =>
                if bond.slashed_amount > nb then Except.error CErr.slashedExceedsBonded
                else
                  let b2 := { bond with bonded_amount := nb }
                  Except.ok (b2, { s with bond := some b2 })
      | _, _ => Except.error CErr.earlyExitConfigNotSet

/-- Models `CredenceBond::renew_if_rolling` (lib.rs:588): returns the bond unchanged
unless it is rolling and `rolling_bond::is_period_ended`; otherwise applies
`rolling_bond::apply_renewal` and stores the result. -/
def renew_if_rolling (now : Nat) (s : Storage) :
    Except CErr (IdentityBond × Storage) :=
  match s.bond with
  | none => Except.error CErr.noBond
  | some bond =>
    if ¬ bond.is_rolling then Except.ok (bond, s)
    else if ¬ is_period_ended now bond.bond_start bond.bond_duration then
      Except.ok (bond, s)
    else
      let b2 := apply_renewal bond now
      Except.ok (b2, { s with bond := some b2 })

/-- Models `CredenceBond::extend_duration` (lib.rs:758): checked add on the duration
and on the projected end timestamp. -/
def extend_duration (s : Storage) (additional_duration : Nat) :
    Except CErr (IdentityBond × Storage) :=
  match s.bond with
  | none => Except.error CErr.noBond
  | some bond =>
    if bond.bond_duration + additional_duration > U64_MAX then
      Except.error CErr.durationOverflow
    else
      let nd := bond.bond_duration + additional_duration
      if bond.bond_start + nd > U64_MAX then Except.error CErr.endTimestampOverflow
      else
        let b2 := { bond with bond_duration := nd }
        Except.ok (b2, { s with bond := some b2 })

/-! ## Reentrancy lock and `slash_bond` (lib.rs:82-113, 832-888) -/

/-- Models `CredenceBond::acquire_lock` (lib.rs:82): sets the `"lock"` flag to `true`.
Note that it does **not** check the flag first. -/
def acquire_lock (s : Storage) : Storage := { s with lock := some true }

/-- Models `CredenceBond::release_lock` (lib.rs:86). -/
def release_lock (s : Storage) : Storage := { s with lock := some false }

/-- Models `CredenceBond::check_lock` (lib.rs:90): reads the `"lock"` flag, default
`false`.  (`with_reentrancy_guard` (lib.rs:105) checks this and panics, but no
entry point in the crate calls `with_reentrancy_guard`.) -/
def check_lock (s : Storage) : Bool := s.lock.getD false

/-- Models `CredenceBond::slash_bond` (lib.rs:832): admin-gated slash with a
post-mutation external callback.  The registered callback contract is external
code that can affect contract storage only through nested entry-point calls;
its behaviour is passed in as `runCallback` (invoked only when a callback
address is registered; its error aborts the whole invocation, as
`invoke_contract` propagates panics).  Source order: `acquire_lock` (no
check), admin check, bond lookup, active check,
`new_slashed = slashed_amount + slash_amount` (unchecked add, trap on
overflow), `new_slashed > bonded_amount` check, state update **before** the
external call, callback, `release_lock`. -/
def slash_bond (s : Storage) (admin : Nat) (slash_amount : Int)
    (runCallback : Storage → Except CErr Storage) : Except CErr (Int × Storage) :=
  let s0 := acquire_lock s
  match s0.admin with
  | none => Except.error CErr.noAdmin
  | some stored_admin =>
    if stored_admin ≠ admin then Except.error CErr.notAdmin
    else match s0.bond with
    | none => Except.error CErr.noBond
    | some bond =>
      if ¬ bond.active then Except.error CErr.bondNotActive
      else match checkedAddI128 bond.slashed_amount slash_amount with
      | none => Except.error CErr.arithmeticTrap
      | some new_slashed =>
        if new_slashed > bond.bonded_amount then Except.error CErr.slashExceedsBond
        else
          let b2 := { bond with slashed_amount := new_slashed }
          let s1 := { s0 with bond := some b2 }
          match s1.callback with
          | none => Except.ok (new_slashed, release_lock s1)
          | some _ =>
            match runCallback s1 with
            | Except.error e => Except.error e
            | Except.ok s2 => Except.ok (new_slashed, release_lock s2)

/-- A callback that performs no nested call into the contract
(`benign_callback::on_slash` in `test_reentrancy.rs`). -/
def benign_callback : Storage → Except CErr Storage := fun s => Except.ok s

/-- The reentrant attacker callback (`slash_attacker::on_slash` in
`test_reentrancy.rs`): from inside the outer `slash_bond`'s external call it
re-invokes `slash_bond` on the same contract.  The nested invocation is given
the benign callback (i.e. the re-entry is modelled to depth one; the real
attacker recurses unboundedly, but the claim concerns the first nested
call). -/
def reentrant_slash_callback (admin : Nat) (amount : Int) :
    Storage → Except CErr Storage :=
  fun s =>
    match slash_bond s admin amount benign_callback with
    | Except.error e => Except.error e
    | Except.ok r => Except.ok r.2

/-! ## The mutating bond operations of claim C1 -/

/-- One mutating operation on the stored bond: exactly the operations named by
the invariant claim (`withdraw` is the alias of `withdraw_bond`). -/
inductive BondOp where
  | create (identity : Nat) (amount : Int) (duration : Nat) (is_rolling : Bool)
      (notice_period_duration : Nat)
  | topUp (amount : Int)
  | withdraw (amount : Int)
  | withdrawEarly (amount : Int)
  | slash (admin : Nat) (amount : Int)
  | renew
  | extend (additional_duration : Nat)
deriving DecidableEq, Repr

/-- Apply one mutating operation at ledger time `now`, returning the resulting
storage.  For `slash` the external callback is the benign one: the callback's
only way to touch contract storage is through nested entry-point calls, each
of which is itself a `BondOp` application (the slash state update happens
before the callback runs). -/
def applyBondOp (now : Nat) (s : Storage) : BondOp → Except CErr Storage
  | BondOp.create i a d r n => (create_bond now s i a d r n).map Prod.snd
  | BondOp.topUp a => (top_up s a).map Prod.snd
  | BondOp.withdraw a => (withdraw_bond now s a).map Prod.snd
  | BondOp.withdrawEarly a => (withdraw_early now s a).map Prod.snd
  | BondOp.slash ad a => (slash_bond s ad a benign_callback).map Prod.snd
  | BondOp.renew => (renew_if_rolling now s).map Prod.snd
  | BondOp.extend a => (extend_duration s a).map Prod.snd

/-- The claimed invariant on the stored bond:
`slashed_amount ≤ bonded_amount` (vacuous when no bond is stored). -/
def bondInvHolds (s : Storage) : Bool :=
  match s.bond with
  | none => true
  | some b => b.slashed_amount ≤ b.bonded_amount

/-! ## `governance_approval.rs` -/

/-- Models `ProposalStatus`. -/
inductive ProposalStatus where
  | Open
  | Executed
  | Rejected
deriving DecidableEq, Repr

/-- Models `SlashProposal`. -/
structure SlashProposal where
  id : Nat
  amount : Int
  proposed_by : Nat
  proposed_at : Nat
  status : ProposalStatus
deriving DecidableEq, Repr

/-- Association-list lookup, modelling `storage.get(&key)` over a family of
tagged keys (first match wins; `setKV` keeps keys unique). -/
def lookupKV {α β : Type} [DecidableEq α] : List (α × β) → α → Option β
  | [], _ => none
  | (k, v) :: rest, key => if k = key then some v else lookupKV rest key

/-- Association-list update, modelling `storage.set(&key, &value)`. -/
def setKV {α β : Type} [DecidableEq α] : List (α × β) → α → β → List (α × β)
  | [], key, v => [(key, v)]
  | (k, w) :: rest, key, v =>
    if k = key then (key, v) :: rest else (k, w) :: setKV rest key v

/-- Governance storage: the `Governance*` keys of `DataKey`.
`governors`/`quorumBps`/`minGovernors`/`nextId` are `none` when the key is
absent (reads apply the source's defaults); `delegates` maps
`GovernanceDelegate(governor)`, `votes` maps `GovernanceVote(id, voter)`,
`proposals` maps `GovernanceProposal(id)`. -/
structure GovStorage where
  governors : Option (List Nat) := none
  delegates : List (Nat × Nat) := []
  votes : List ((Nat × Nat) × Bool) := []
  proposals : List (Nat × SlashProposal) := []
  nextId : Option Nat := none
  quorumBps : Option Nat := none
  minGovernors : Option Nat := none
deriving DecidableEq, Repr

/-- Models `governance_approval::effective_voter`: the governor's delegate if one is
set, else the governor itself (one hop only). -/
def effective_voter (st : GovStorage) (governor : Nat) : Nat :=
  (lookupKV st.delegates governor).getD governor

/-- The loop body of `governance_approval::count_votes`, as structural
recursion over the governor list: returns
`(approve_count, reject_count, total_voted)`; each governor contributes the
vote recorded for its effective voter (once per governor). -/
def count_votes_list (st : GovStorage) (proposal_id : Nat) :
    List Nat → Nat × Nat × Nat
  | [] => (0, 0, 0)
  | g :: gs =>
    let acc := count_votes_list st proposal_id gs
    match lookupKV st.votes (proposal_id, effective_voter st g) with
    | none => acc
    | some true => (acc.1 + 1, acc.2.1, acc.2.2 + 1)
    | some false => (acc.1, acc.2.1 + 1, acc.2.2 + 1)

/-- Models `governance_approval::count_votes`. -/
def count_votes (st : GovStorage) (proposal_id : Nat) : Nat × Nat × Nat :=
  count_votes_list st proposal_id (st.governors.getD [])

/-- Models `governance_approval::is_approved`.  Reads `quorum_bps` with default
`5100` and `min_governors` with default `1`; returns `false` when there are no
governors.  `total * quorum_bps` is an unchecked `u32` multiplication,
modelled as trapping (`none`) on overflow.
`quorum_ok = voted >= (total * quorum_bps / 10_000).max(min_governors)`;
`majority_approve = voted > 0 && approve > voted / 2`. -/
def is_approved (st : GovStorage) (proposal_id : Nat) : Option Bool :=
  if (st.governors.getD []).length = 0 then some false
  else if (st.governors.getD []).length * st.quorumBps.getD 5100 > U32_MAX then none
  else
    some (decide (max ((st.governors.getD []).length * st.quorumBps.getD 5100 / 10000)
            (st.minGovernors.getD 1) ≤ (count_votes st proposal_id).2.2) &&
          (decide (0 < (count_votes st proposal_id).2.2) &&
           decide ((count_votes st proposal_id).2.2 / 2 < (count_votes st proposal_id).1)))

/-- Spec-side count (following the claim's words, for comparison with
`count_votes`): the number of governors whose effective voter has a recorded
vote on the proposal — "counting that voter's recorded vote once per
governor". -/
def claimVoted (st : GovStorage) (proposal_id : Nat) : Nat :=
  List.countP (fun g => (lookupKV st.votes (proposal_id, effective_voter st g)).isSome)
    (st.governors.getD [])

/-- Spec-side count (following the claim's words): the number of governors
whose effective voter has a recorded approval vote on the proposal. -/
def claimApproveCount (st : GovStorage) (proposal_id : Nat) : Nat :=
  List.countP
    (fun g =>
      match lookupKV st.votes (proposal_id, effective_voter st g) with
      | some true => true
      | _ => false)
    (st.governors.getD [])

/-- Models `governance_approval::vote` (`CredenceBond::governance_vote` forwards to it
after `voter.require_auth()`, which is modelled as satisfied).  Checks: the
proposal exists and is `Open`; governance is initialized; the voter is a
governor or the current delegate of some governor; the `(proposal, voter)`
vote key is not already present.  Records the vote. -/
def vote (st : GovStorage) (voter : Nat) (proposal_id : Nat) (approve : Bool) :
    Except CErr GovStorage :=
  match lookupKV st.proposals proposal_id with
  | none => Except.error CErr.proposalNotFound
  | some proposal =>
    if proposal.status ≠ ProposalStatus.Open then Except.error CErr.proposalNotOpen
    else match st.governors with
    | none => Except.error CErr.govNotInitialized
    | some govs =>
      if ¬ (govs.contains voter ||
            govs.any (fun g => lookupKV st.delegates g = some voter)) then
        Except.error CErr.notGovernorOrDelegate
      else if (lookupKV st.votes (proposal_id, voter)).isSome then
        Except.error CErr.alreadyVoted
      else
        Except.ok { st with votes := setKV st.votes (proposal_id, voter) approve }

/-! ## Concrete states used by counterexamples and scenario evaluations -/

/-- A bond of 10000 with nothing slashed (the `setup_bond` fixture of
`test_reentrancy.rs`). -/
def reentrancyBond : IdentityBond :=
  { identity := 2, bonded_amount := 10000, bond_start := 0, bond_duration := 86400,
    slashed_amount := 0, active := true, is_rolling := false,
    withdrawal_requested_at := 0, notice_period_duration := 0 }

/-- Storage with admin `1`, token `3`, a registered callback contract `4` and
`reentrancyBond` stored. -/
def reentrancyStorage : Storage :=
  { admin := some 1, token := some 3, callback := some 4, bond := some reentrancyBond }

/-- A matured non-rolling bond of 1000 (duration 10, created at 0), nothing
slashed. -/
def maturedBond : IdentityBond :=
  { identity := 2, bonded_amount := 1000, bond_start := 0, bond_duration := 10,
    slashed_amount := 0, active := true, is_rolling := false,
    withdrawal_requested_at := 0, notice_period_duration := 0 }

/-- Storage with admin `1`, token `3` and `maturedBond` stored. -/
def maturedStorage : Storage :=
  { admin := some 1, token := some 3, bond := some maturedBond }

/-- A rolling bond (duration 10, notice period 5) with a withdrawal request
pending since time 7. -/
def rollingBond : IdentityBond :=
  { identity := 2, bonded_amount := 1000, bond_start := 0, bond_duration := 10,
    slashed_amount := 0, active := true, is_rolling := true,
    withdrawal_requested_at := 7, notice_period_duration := 5 }

/-- Storage with admin `1`, token `3` and `rollingBond` stored. -/
def rollingStorage : Storage :=
  { admin := some 1, token := some 3, bond := some rollingBond }

/-- An open slash proposal with id 0 for amount 50, proposed by governor 1 at
time 0 (scenario D). -/
def proposal0 : SlashProposal :=
  { id := 0, amount := 50, proposed_by := 1, proposed_at := 0,
    status := ProposalStatus.Open }

/-- Governance storage: governors 1, 2, 3; quorum 6600 bps; min 2 governors;
`proposal0` open; no votes, no delegates (scenario D). -/
def govD : GovStorage :=
  { governors := some [1, 2, 3], proposals := [(0, proposal0)],
    quorumBps := some 6600, minGovernors := some 2 }

/-- State `govD` after governor 1 voted approve on proposal 0. -/
def govD1 : GovStorage :=
  { govD with votes := [((0, 1), true)] }

/-- State `govD1` after governor 2 also voted approve on proposal 0. -/
def govD2 : GovStorage :=
  { govD with votes := [((0, 1), true), ((0, 2), true)] }

/-- State `govD2` after governor 3 also voted approve on proposal 0. -/
def govD3 : GovStorage :=
  { govD with votes := [((0, 1), true), ((0, 2), true), ((0, 3), true)] }

/-! ## Theorems -/

/-- C10: `initialize(admin)` succeeds for every prior storage state and every
admin address — there is no authorization requirement and no
already-initialized check — it unconditionally stores the given address as the
contract admin, and a later call replaces the previously stored admin. -/
theorem init_admin_unconditional (s : Storage) (a b : Nat) :
    init_admin s a = Except.ok { s with admin := some a } ∧
    (init_admin s a).bind (fun s1 => init_admin s1 b) =
      Except.ok { s with admin := some b } :=
  ⟨rfl, rfl⟩

/-- C3 (code evaluated at the failing input): with a bond of 10000 stored and
a callback registered whose `on_slash` re-invokes `slash_bond(admin, 100)`
while the outer `slash_bond(admin, 500)` holds the lock, the outer invocation
**succeeds** — so the inner call did not fail with a reentrancy error (an
inner failure would have aborted the outer call, since `invoke_contract`
propagates panics) — and the stored `slashed_amount` afterwards is `600`,
i.e. the nested call performed a second slash during the outer one.
`acquire_lock` sets the flag without testing it, and `slash_bond` never calls
`check_lock`/`with_reentrancy_guard`, contradicting its own doc comment
("Uses a reentrancy guard to prevent re-entrance during external calls").
The lock is `false` after the outer call returns. -/
theorem slash_bond_reentrancy_not_blocked :
    slash_bond reentrancyStorage 1 500 (reentrant_slash_callback 1 100) =
      Except.ok (500,
        { admin := some 1, token := some 3, callback := some 4,
          bond := some { reentrancyBond with slashed_amount := 600 },
          lock := some false }) := by
  rfl

/-- C4 counterexample: the claim says that (for all inputs, when
`total_duration ≠ 0` and `bps ≠ 0`) the result is
`floor(floor(amount*bps/10000) * remaining / total_duration)`.  At
`amount = 2^126, remaining = 1, total_duration = 1, bps = 4` the product
`amount * bps = 2^128` overflows `i128`, `checked_mul(..).unwrap_or(0)` makes
the base `0`, and the function returns `0` — while the claimed exact-arithmetic
value `(2^126 * 4) / 10000 * 1 / 1` is not `0`.  (The literal below is
`2^126`.) -/
theorem calculate_penalty_overflow_zero :
    calculate_penalty 85070591730234615865843651857942052864 1 1 4 = some 0 ∧
    (85070591730234615865843651857942052864 * 4 : Int) / 10000 * 1 / 1 ≠ 0 := by
  constructor
  · rfl
  · decide

/-- C4 (amended): `calculate_penalty(amount, remaining, total_duration, bps)`
returns `0` when `total_duration = 0` or `bps = 0`; otherwise, for
`0 ≤ amount` and when neither multiplication leaves the `i128` range, it
returns `floor(floor(amount*bps/10000) * remaining / total_duration)`
(on these non-negative values Rust's truncating division coincides with the
floor; integer `/` below is Euclidean division, which is the floor for the
positive divisors used).  In particular
`calculate_penalty(1000, 50, 100, 500) = 25`. -/
theorem calculate_penalty_spec (amount : Int)
    (remaining_time total_duration penalty_bps : Nat)
    (hamt : 0 ≤ amount)
    (hmul1 : amount * (penalty_bps : Int) ≤ I128_MAX)
    (hmul2 : amount * (penalty_bps : Int) / 10000 * (remaining_time : Int) ≤ I128_MAX) :
    calculate_penalty amount remaining_time total_duration penalty_bps =
      some (if total_duration = 0 ∨ penalty_bps = 0 then 0
            else amount * (penalty_bps : Int) / 10000 * (remaining_time : Int) /
              (total_duration : Int)) := by
  unfold calculate_penalty
  by_cases h0 : total_duration = 0 ∨ penalty_bps = 0
  · simp [h0]
  · rw [if_neg h0, if_neg h0]
    have hp0 : (0 : Int) ≤ amount * (penalty_bps : Int) :=
      mul_nonneg hamt (Int.ofNat_nonneg _)
    have hc1 : checkedMulI128 amount (penalty_bps : Int) =
        some (amount * (penalty_bps : Int)) := by
      unfold checkedMulI128
      rw [if_pos ⟨le_trans (by norm_num [I128_MIN]) hp0, hmul1⟩]
    rw [hc1, Option.getD_some,
      Int.tdiv_eq_ediv hp0 (by norm_num)]
    have hb0 : (0 : Int) ≤ amount * (penalty_bps : Int) / 10000 :=
      Int.ediv_nonneg hp0 (by norm_num)
    have hq0 : (0 : Int) ≤ amount * (penalty_bps : Int) / 10000 * (remaining_time : Int) :=
      mul_nonneg hb0 (Int.ofNat_nonneg _)
    have hc2 : checkedMulI128 (amount * (penalty_bps : Int) / 10000) (remaining_time : Int) =
        some (amount * (penalty_bps : Int) / 10000 * (remaining_time : Int)) := by
      unfold checkedMulI128
      rw [if_pos ⟨le_trans (by norm_num [I128_MIN]) hq0, hmul2⟩]
    rw [hc2]
    simp only [Int.tdiv_eq_ediv hq0 (Int.ofNat_nonneg _)]

/-- C4 witness: the amended theorem instantiated at the scenario-B input,
`calculate_penalty(1000, 50, 100, 500) = 25`. -/
theorem calculate_penalty_spec_witness :
    calculate_penalty 1000 50 100 500 = some 25 := by
  have h := calculate_penalty_spec 1000 50 100 500 (by decide) (by decide) (by decide)
  rw [h]; decide

/-- C7 counterexample: the claim says `consume_nonce` succeeds exactly when
the argument equals the stored nonce; at the maximal stored value
`2^64 - 1` the call with the matching argument nevertheless fails (the
checked increment fails closed), so "succeeds exactly when `n` equals the
stored nonce" does not hold there. -/
theorem consume_nonce_max_fails_closed :
    consume_nonce U64_MAX U64_MAX = Except.error CErr.nonceOverflow := by
  rfl

/-- C7 (amended): `consume_nonce(identity, n)` succeeds at most once for a
given `n`: it succeeds exactly when `n` equals the stored nonce **and** the
checked increment does not overflow `u64` (i.e. `stored < 2^64 - 1`; the
spec notes the overflow must fail closed); on success the stored nonce
becomes exactly `stored + 1`, and a second call with the same `n` fails with
the replay error. -/
theorem consume_nonce_spec (stored n : Nat) :
    ((∃ next, consume_nonce stored n = Except.ok next) ↔
      n = stored ∧ stored < U64_MAX) ∧
    ∀ next, consume_nonce stored n = Except.ok next →
      next = stored + 1 ∧ consume_nonce next n = Except.error CErr.nonceReplay := by
  unfold consume_nonce
  by_cases h1 : stored ≠ n
  · simp only [if_pos h1]
    constructor
    · constructor
      · rintro ⟨next, h⟩; cases h
      · rintro ⟨h, -⟩; exact absurd h.symm h1
    · intro next h; cases h
  · push_neg at h1
    simp only [if_neg (by omega : ¬ stored ≠ n)]
    by_cases h2 : stored + 1 > U64_MAX
    · simp only [if_pos h2]
      constructor
      · constructor
        · rintro ⟨next, h⟩; cases h
        · rintro ⟨-, h⟩; omega
      · intro next h; cases h
    · simp only [if_neg h2]
      constructor
      · constructor
        · rintro ⟨next, -⟩; exact ⟨h1.symm, by omega⟩
        · rintro -; exact ⟨stored + 1, rfl⟩
      · intro next h
        injection h with h'
        subst h'
        refine ⟨rfl, ?_⟩
        rw [if_pos (by omega : stored + 1 ≠ n)]

/-- C7 witness: `consume_nonce` at the initial stored value `0` with `n = 0`
succeeds yielding `1`, and the second call with the same `n` fails with the
replay error. -/
theorem consume_nonce_spec_witness :
    consume_nonce 0 0 = Except.ok 1 ∧
    consume_nonce 1 0 = Except.error CErr.nonceReplay := by
  have h := consume_nonce_spec 0 0
  have hok : consume_nonce 0 0 = Except.ok 1 := by rfl
  exact ⟨hok, (h.2 1 hok).2⟩

/-- C9 counterexample: the claim says the weight is computed over the exact
(arbitrary-precision) value of `stake * multiplier_bps`.  With the default
config `(multiplier_bps, max_weight) = (100, 100000)` and a configured stake
of `2^64` (a valid non-negative `i128` stake), the source truncates the stake
with `as u64` to `0`, yielding weight `1` — while the claimed
`clamp(floor(stake * multiplier_bps / 10000), 1, min(max_weight, 1000000))`
is `100000 ≠ 1`. -/
theorem compute_weight_truncation_counterexample :
    compute_weight ((U64_MAX : Int) + 1) 100 100000 = some 1 ∧
    min (max (((U64_MAX : Int) + 1) * 100 / 10000) 1) (min 100000 1000000) ≠ 1 := by
  constructor
  · decide
  · decide

/-- C9 (amended): when the attester's configured stake is ≤ 0,
`compute_weight` returns the default weight 1, unconditionally; for a
positive configured stake, whenever no machine-width truncation occurs —
`stake < 2^64`, the `u64` product `stake * multiplier_bps` does not
overflow, and the quotient fits `u32` — and `max_weight` is positive,
it returns `clamp(floor(stake * multiplier_bps / 10000), 1,
min(max_weight, MAX_ATTESTATION_WEIGHT))`.  Outside those ranges the
computation truncates (`as u64` / `as u32`) or traps instead of using exact
arithmetic. -/
theorem compute_weight_spec (stake : Int) (multiplier_bps max_weight : Nat) :
    (stake ≤ 0 →
      compute_weight stake multiplier_bps max_weight =
        some DEFAULT_ATTESTATION_WEIGHT) ∧
    (0 < stake → stake < (U64_MAX : Int) + 1 →
      stake.natAbs * multiplier_bps ≤ U64_MAX →
      stake.natAbs * multiplier_bps / 10000 ≤ U32_MAX →
      0 < max_weight →
      compute_weight stake multiplier_bps max_weight =
        some (min (max (stake.natAbs * multiplier_bps / 10000) DEFAULT_ATTESTATION_WEIGHT)
              (min max_weight MAX_ATTESTATION_WEIGHT))) := by
  constructor
  · intro hle
    unfold compute_weight
    rw [if_pos hle]
  · intro hpos hsmall hmul hqfit hmw
    have habs : stake.natAbs % (U64_MAX + 1) = stake.natAbs := by
      apply Nat.mod_eq_of_lt
      omega
    unfold compute_weight
    rw [if_neg (by omega : ¬ stake ≤ 0), habs,
      if_neg (by omega : ¬ stake.natAbs * multiplier_bps > U64_MAX)]
    have hq : stake.natAbs * multiplier_bps / 10000 % (U32_MAX + 1) =
        stake.natAbs * multiplier_bps / 10000 := Nat.mod_eq_of_lt (by omega)
    rw [hq]
    congr 1
    simp only [MAX_ATTESTATION_WEIGHT, DEFAULT_ATTESTATION_WEIGHT]
    omega

/-- C9 witness: the amended theorem exercised on both branches — a
non-positive stake of `-7` gives the default weight 1, and stake 50000 with
the default config gives weight `floor(50000 * 100 / 10000) = 500`. -/
theorem compute_weight_spec_witness :
    compute_weight (-7) 100 100000 = some 1 ∧
    compute_weight 50000 100 100000 = some 500 := by
  constructor
  · exact (compute_weight_spec (-7) 100 100000).1 (by decide)
  · have h := (compute_weight_spec 50000 100 100000).2 (by decide) (by decide)
      (by decide) (by decide) (by decide)
    rw [h]; decide

/-- C8: when the stored bond's period end does not overflow `u64`,
`renew_if_rolling` leaves the stored bond (and the whole storage) entirely
unchanged unless the bond is rolling and `now ≥ bond_start + bond_duration`;
when it does renew, it sets `bond_start = now` and resets
`withdrawal_requested_at` to `0` — even if a withdrawal was pending — and
leaves every other field unchanged. -/
theorem renew_if_rolling_spec (now : Nat) (s : Storage) (b : IdentityBond)
    (hb : s.bond = some b) (hend : b.bond_start + b.bond_duration ≤ U64_MAX) :
    renew_if_rolling now s =
      if b.is_rolling = true ∧ b.bond_start + b.bond_duration ≤ now then
        Except.ok ({ b with bond_start := now, withdrawal_requested_at := 0 },
          { s with
              bond := some { b with bond_start := now, withdrawal_requested_at := 0 } })
      else Except.ok (b, s) := by
  have hsat : satAddU64 b.bond_start b.bond_duration =
      b.bond_start + b.bond_duration := by
    simp only [satAddU64]
    omega
  simp only [renew_if_rolling, hb]
  by_cases hr : b.is_rolling = true
  · rw [if_neg (not_not_intro hr)]
    by_cases hp : b.bond_start + b.bond_duration ≤ now
    · have hpe : is_period_ended now b.bond_start b.bond_duration = true := by
        simp [is_period_ended, hsat, hp]
      rw [if_neg (by simp [hpe]), if_pos ⟨hr, hp⟩]
      rfl
    · have hpe : is_period_ended now b.bond_start b.bond_duration = false := by
        simp [is_period_ended, hsat, hp]
      rw [if_pos (by simp [hpe]), if_neg (fun hc => hp hc.2)]
  · rw [if_pos hr, if_neg (fun hc => hr hc.1)]

/-- C8 witness: at time 12 the rolling bond (period end 10, withdrawal
requested at 7) is renewed: `bond_start` becomes 12 and the pending
`withdrawal_requested_at` is silently reset to 0. -/
theorem renew_if_rolling_spec_witness :
    renew_if_rolling 12 rollingStorage =
      Except.ok ({ rollingBond with bond_start := 12, withdrawal_requested_at := 0 },
        { rollingStorage with
            bond := some { rollingBond with bond_start := 12, withdrawal_requested_at := 0 } }) := by
  have h := renew_if_rolling_spec 12 rollingStorage rollingBond rfl (by decide)
  rw [h, if_pos ⟨rfl, by decide⟩]

/-- C2 counterexample: the claim says a successful `withdraw(amount)`
*strictly decreases* `bonded_amount` by exactly `amount`.  On the matured
bond of 1000 with nothing slashed, `withdraw(0)` satisfies
`0 ≤ bonded_amount − slashed_amount`, succeeds, and returns the bond and
storage completely unchanged — `bonded_amount` stays 1000, which is not a
strict decrease. -/
theorem withdraw_zero_succeeds_without_decrease :
    withdraw_bond 10 maturedStorage 0 = Except.ok (maturedBond, maturedStorage) := by
  rfl

/-- C2 (amended): for a stored bond whose temporal conditions for withdrawal
are met (non-rolling: `now ≥` saturated `bond_start + bond_duration`;
rolling: withdrawal was requested and the notice period elapsed), with the
token configured, a well-formed bond (`0 ≤ slashed_amount ≤ bonded_amount ≤
i128::MAX`) and a non-negative `amount`: `withdraw(amount)` succeeds if and
only if `amount ≤ bonded_amount − slashed_amount`, and on success the new
`bonded_amount` is exactly `bonded_amount − amount` — a *strict* decrease
whenever `amount > 0` (for `amount = 0` the call succeeds without change). -/
theorem withdraw_bond_spec (now : Nat) (s : Storage) (b : IdentityBond)
    (amount : Int)
    (hb : s.bond = some b) (htok : s.token.isSome = true)
    (hsl : 0 ≤ b.slashed_amount) (hinv : b.slashed_amount ≤ b.bonded_amount)
    (hmax : b.bonded_amount ≤ I128_MAX) (hamt : 0 ≤ amount)
    (htemp : (b.is_rolling = false ∧ satAddU64 b.bond_start b.bond_duration ≤ now) ∨
      (b.is_rolling = true ∧ b.withdrawal_requested_at ≠ 0 ∧
        satAddU64 b.withdrawal_requested_at b.notice_period_duration ≤ now)) :
    ((∃ r, withdraw_bond now s amount = Except.ok r) ↔
      amount ≤ b.bonded_amount - b.slashed_amount) ∧
    ∀ b' s', withdraw_bond now s amount = Except.ok (b', s') →
      b'.bonded_amount = b.bonded_amount - amount ∧ s'.bond = some b' ∧
      (0 < amount → b'.bonded_amount < b.bonded_amount) := by
  have hgok : withdraw_gate now b = Except.ok () := by
    unfold withdraw_gate
    rcases htemp with ⟨hr, hle⟩ | ⟨hr, hreq, hle⟩
    · rw [hr]
      simp only [Bool.false_eq_true, if_false]
      rw [if_neg (by omega)]
    · have hcw : can_withdraw_after_notice now b.withdrawal_requested_at
          b.notice_period_duration = true := by
        simp [can_withdraw_after_notice, hreq, hle]
      rw [hr]
      simp only [if_true]
      rw [if_neg hreq, if_neg (by simp [hcw])]
  have hav : checkedSubI128 b.bonded_amount b.slashed_amount =
      some (b.bonded_amount - b.slashed_amount) := by
    unfold checkedSubI128
    rw [if_pos (by simp only [I128_MIN, I128_MAX] at hmax ⊢; omega)]
  unfold withdraw_bond
  rw [hb]
  simp only [hgok, hav]
  by_cases hgt : amount > b.bonded_amount - b.slashed_amount
  · rw [if_pos hgt]
    constructor
    · constructor
      · rintro ⟨r, h⟩; cases h
      · intro h; omega
    · intro b' s' h; cases h
  · rw [if_neg hgt]
    obtain ⟨tok, htok'⟩ := Option.isSome_iff_exists.mp htok
    rw [htok']
    rw [if_neg (by simp [tokenTransferOk, hamt])]
    have hnb : checkedSubI128 b.bonded_amount amount =
        some (b.bonded_amount - amount) := by
      unfold checkedSubI128
      rw [if_pos (by simp only [I128_MIN, I128_MAX] at hmax ⊢; omega)]
    simp only [hnb]
    constructor
    · constructor
      · intro _; omega
      · intro _; exact ⟨_, rfl⟩
    · intro b' s' h
      injection h with h'
      obtain ⟨rfl, rfl⟩ := Eq.mp (Prod.mk.injEq ..) h'
      refine ⟨rfl, rfl, fun hpos => ?_⟩
      show b.bonded_amount - amount < b.bonded_amount
      omega

/-- C2 witness: on the matured bond of 1000 (nothing slashed) at time 10,
the amended theorem gives: `withdraw(300)` succeeds, and any successful
result has `bonded_amount = 700`. -/
theorem withdraw_bond_spec_witness :
    (∃ r, withdraw_bond 10 maturedStorage 300 = Except.ok r) ∧
    ∀ b' s', withdraw_bond 10 maturedStorage 300 = Except.ok (b', s') →
      b'.bonded_amount = 700 := by
  have h := withdraw_bond_spec 10 maturedStorage maturedBond 300 rfl rfl
    (by decide) (by decide) (by decide) (by decide)
    (Or.inl ⟨rfl, by decide⟩)
  refine ⟨h.1.mpr (by decide), ?_⟩
  intro b' s' hr
  have := (h.2 b' s' hr).1
  rw [this]
  decide

theorem lookupKV_setKV {α β : Type} [DecidableEq α] (l : List (α × β)) (k k' : α)
    (v : β) :
    lookupKV (setKV l k v) k' = if k' = k then some v else lookupKV l k' := by
  induction l with
  | nil =>
    simp only [setKV, lookupKV]
    by_cases h : k = k'
    · rw [if_pos h, if_pos h.symm]
    · rw [if_neg h, if_neg (fun hh => h hh.symm)]
  | cons p rest ih =>
    obtain ⟨pk, pv⟩ := p
    by_cases hpk : pk = k
    · subst hpk
      simp only [setKV, if_pos rfl, lookupKV]
      by_cases h : pk = k'
      · rw [if_pos h, if_pos h.symm]
      · rw [if_neg h, if_neg (fun hh => h hh.symm), if_neg h]
    · simp only [setKV, if_neg hpk, lookupKV, ih]
      by_cases h2 : k' = k
      · subst h2
        rw [if_neg (fun hh => hpk hh), if_pos rfl, if_pos rfl]
      · simp only [if_neg h2]

theorem count_votes_list_eq_countP (st : GovStorage) (pid : Nat) (gs : List Nat) :
    count_votes_list st pid gs =
      (List.countP
        (fun g =>
          match lookupKV st.votes (pid, effective_voter st g) with
          | some true => true
          | _ => false) gs,
       List.countP
        (fun g =>
          match lookupKV st.votes (pid, effective_voter st g) with
          | some false => true
          | _ => false) gs,
       List.countP (fun g => (lookupKV st.votes (pid, effective_voter st g)).isSome) gs) := by
  induction gs with
  | nil => rfl
  | cons g gs ih =>
    simp only [count_votes_list, ih, List.countP_cons]
    cases hv : lookupKV st.votes (pid, effective_voter st g) with
    | none => simp [hv]
    | some v => cases v <;> simp [hv]

/-- C5: `is_approved(proposal_id)` returns `true` if and only if, resolving
each governor to its effective voter (the governor itself when it has no
delegate) and counting that voter's recorded vote once per governor, both
`voted ≥ max(floor(total_governors * quorum_bps / 10000), min_governors)`
and `voted > 0` with `approve_count > voted / 2` hold.  (The hypothesis
excludes the `u32` overflow of `total * quorum_bps`, in which case the call
traps instead of returning.) -/
theorem is_approved_iff_quorum_and_majority (st : GovStorage) (pid : Nat)
    (hov : (st.governors.getD []).length * st.quorumBps.getD 5100 ≤ U32_MAX) :
    (is_approved st pid = some true ↔
      (max ((st.governors.getD []).length * st.quorumBps.getD 5100 / 10000)
          (st.minGovernors.getD 1) ≤ claimVoted st pid ∧
        0 < claimVoted st pid ∧
        claimVoted st pid / 2 < claimApproveCount st pid)) := by
  unfold is_approved
  by_cases h0 : (st.governors.getD []).length = 0
  · rw [if_pos h0]
    have hnil : st.governors.getD [] = [] := List.length_eq_zero.mp h0
    constructor
    · intro h
      simp at h
    · rintro ⟨-, hpos, -⟩
      rw [claimVoted, hnil] at hpos
      simp at hpos
  · rw [if_neg h0, if_neg (by omega :
      ¬ (st.governors.getD []).length * st.quorumBps.getD 5100 > U32_MAX)]
    rw [count_votes, count_votes_list_eq_countP]
    simp only [claimVoted, claimApproveCount, Option.some.injEq, Bool.and_eq_true,
      decide_eq_true_eq]

/-- C5 witness: scenario D — governors 1, 2, 3, quorum 6600 bps,
min 2 governors, two approvals on proposal 0 — is approved. -/
theorem is_approved_iff_witness : is_approved govD2 0 = some true := by
  have h := is_approved_iff_quorum_and_majority govD2 0 (by decide)
  exact h.mpr (by decide)

theorem count_votes_list_insert_approve (st st' : GovStorage) (pid voter : Nat)
    (gs : List Nat)
    (hdel : st'.delegates = st.delegates)
    (hvotes : st'.votes = setKV st.votes (pid, voter) true)
    (habs : lookupKV st.votes (pid, voter) = none) :
    count_votes_list st' pid gs =
      ((count_votes_list st pid gs).1 +
        List.countP (fun g => decide (effective_voter st g = voter)) gs,
       (count_votes_list st pid gs).2.1,
       (count_votes_list st pid gs).2.2 +
        List.countP (fun g => decide (effective_voter st g = voter)) gs) := by
  induction gs with
  | nil => rfl
  | cons g gs ih =>
    have heff : effective_voter st' g = effective_voter st g := by
      simp [effective_voter, hdel]
    by_cases he : effective_voter st g = voter
    · have hlook' : lookupKV st'.votes (pid, effective_voter st' g) = some true := by
        rw [heff, hvotes, lookupKV_setKV, if_pos (by rw [he])]
      have hlook : lookupKV st.votes (pid, effective_voter st g) = none := by
        rw [he]; exact habs
      simp only [count_votes_list, List.countP_cons, hlook', hlook, ih]
      simp [he, Prod.ext_iff]
      omega
    · have hkey : ¬ ((pid, effective_voter st g) = ((pid, voter) : Nat × Nat)) := by
        intro hk
        exact he (congrArg Prod.snd hk)
      have hlook' : lookupKV st'.votes (pid, effective_voter st' g) =
          lookupKV st.votes (pid, effective_voter st g) := by
        rw [heff, hvotes, lookupKV_setKV, if_neg hkey]
      simp only [count_votes_list, List.countP_cons, hlook', ih]
      cases hv : lookupKV st.votes (pid, effective_voter st g) with
      | none => simp [he, hv, Prod.ext_iff]
      | some v => cases v <;> simp [he, hv, Prod.ext_iff] <;> omega

/-- C6: if `is_approved(proposal_id)` is true before a successful
`governance_vote(voter, proposal_id, approve := true)`, it is still true
afterwards — adding an approval vote never flips approval from true to
false. -/
theorem is_approved_monotone_under_approval (st st' : GovStorage)
    (voter pid : Nat)
    (hvote : vote st voter pid true = Except.ok st')
    (happ : is_approved st pid = some true) :
    is_approved st' pid = some true := by
  have hinv : lookupKV st.votes (pid, voter) = none ∧
      st' = { st with votes := setKV st.votes (pid, voter) true } := by
    unfold vote at hvote
    split at hvote
    · cases hvote
    · split at hvote
      · cases hvote
      · split at hvote
        · cases hvote
        · split at hvote
          · cases hvote
          · split at hvote
            · cases hvote
            · next hvoted =>
              injection hvote with hst'
              refine ⟨?_, hst'.symm⟩
              cases hl : lookupKV st.votes (pid, voter) with
              | none => rfl
              | some v => rw [hl] at hvoted; simp at hvoted
  obtain ⟨habs, rfl⟩ := hinv
  unfold is_approved at happ ⊢
  dsimp only
  split at happ
  · simp at happ
  next h0 =>
    split at happ
    · cases happ
    next hno =>
      rw [if_neg h0, if_neg hno]
      rw [count_votes] at happ ⊢
      dsimp only
      rw [count_votes_list_insert_approve st
        ({ st with votes := setKV st.votes (pid, voter) true }) pid voter
        (st.governors.getD []) rfl rfl habs]
      simp [Option.some.injEq, Bool.and_eq_true, decide_eq_true_eq] at happ ⊢
      obtain ⟨hq, hp, hm⟩ := happ
      refine ⟨?_, ?_, ?_⟩ <;> omega

/-- C6 witness: scenario D's governance state with two approvals (`govD2`,
already approved) stays approved after governor 3's successful approval vote
(`govD3`). -/
theorem is_approved_monotone_witness : is_approved govD3 0 = some true := by
  have h := is_approved_monotone_under_approval govD2 govD3 3 0 (by rfl) (by rfl)
  exact h

theorem map_snd_eq_ok {α : Type} {e : Except CErr (α × Storage)} {s' : Storage}
    (h : Except.map Prod.snd e = Except.ok s') : ∃ x, e = Except.ok (x, s') := by
  cases e with
  | error err => simp only [Except.map] at h; cases h
  | ok p =>
    simp only [Except.map] at h
    injection h with h'
    exact ⟨p.1, by rw [← h']⟩

theorem checkedAddI128_eq_some {a b c : Int} (h : checkedAddI128 a b = some c) :
    c = a + b ∧ I128_MIN ≤ a + b ∧ a + b ≤ I128_MAX := by
  unfold checkedAddI128 at h
  split at h
  · next hc => injection h with h'; exact ⟨h'.symm, hc.1, hc.2⟩
  · cases h

theorem checkedSubI128_eq_some {a b c : Int} (h : checkedSubI128 a b = some c) :
    c = a - b ∧ I128_MIN ≤ a - b ∧ a - b ≤ I128_MAX := by
  unfold checkedSubI128 at h
  split at h
  · next hc => injection h with h'; exact ⟨h'.symm, hc.1, hc.2⟩
  · cases h

theorem checkedMulI128_eq_some {a b c : Int} (h : checkedMulI128 a b = some c) :
    c = a * b ∧ I128_MIN ≤ a * b ∧ a * b ≤ I128_MAX := by
  unfold checkedMulI128 at h
  split at h
  · next hc => injection h with h'; exact ⟨h'.symm, hc.1, hc.2⟩
  · cases h

theorem calculate_fee_net_nonneg (fee_bps : Nat) (amount fee net : Int)
    (hbps : fee_bps ≤ 10000) (hamt : 0 ≤ amount)
    (h : calculate_fee fee_bps amount = some (fee, net)) : 0 ≤ net := by
  unfold calculate_fee at h
  split at h
  · injection h with h'
    obtain ⟨-, rfl⟩ := Eq.mp (Prod.mk.injEq ..) h'
    exact hamt
  next hcnd =>
    push_neg at hcnd
    obtain ⟨hbps0, hpos⟩ := hcnd
    split at h
    · cases h
    next p hp =>
      obtain ⟨rfl, -, -⟩ := checkedMulI128_eq_some hp
      split at h
      · cases h
      next net0 hsub =>
        injection h with h'
        obtain ⟨rfl, rfl⟩ := Eq.mp (Prod.mk.injEq ..) h'
        obtain ⟨hnet, -, -⟩ := checkedSubI128_eq_some hsub
        have hp0 : (0 : Int) ≤ amount * (fee_bps : Int) :=
          mul_nonneg hamt (Int.ofNat_nonneg _)
        rw [Int.tdiv_eq_ediv hp0 (by norm_num)] at hnet
        have h1 : amount * (fee_bps : Int) ≤ amount * 10000 :=
          mul_le_mul_of_nonneg_left (by exact_mod_cast hbps) hamt
        have h2 : amount * (fee_bps : Int) / 10000 ≤ amount * 10000 / 10000 :=
          Int.ediv_le_ediv (by norm_num) h1
        rw [Int.mul_ediv_cancel amount (by norm_num)] at h2
        omega

/-- C1: for every storage state satisfying the invariant
`slashed_amount ≤ bonded_amount` (which holds in every reachable state: it is
established by `create_bond` and preserved below) and a fee configuration
with `fee_bps ≤ 10000` (enforced by `fees::set_config`), every mutating bond
operation — `create_bond`, `top_up`, `withdraw_bond`/`withdraw`,
`withdraw_early`, `slash_bond`, `renew_if_rolling`, `extend_duration` — that
succeeds leaves a stored bond that again satisfies
`slashed_amount ≤ bonded_amount`. -/
theorem bond_invariant_preserved (now : Nat) (s s' : Storage) (op : BondOp)
    (hInv : bondInvHolds s = true) (hFee : s.feeBps.getD 0 ≤ 10000)
    (h : applyBondOp now s op = Except.ok s') :
    bondInvHolds s' = true := by
  cases op with
  | create i a d r n =>
    obtain ⟨b0, hc⟩ := map_snd_eq_ok h
    simp only [create_bond] at hc
    split at hc
    · cases hc
    next hA =>
      split at hc
      · cases hc
      next tok htok =>
        split at hc
        · cases hc
        next htr =>
          split at hc
          · cases hc
          next hend =>
            split at hc
            · cases hc
            next fee net hfee =>
              split at hc
              · cases hc
              next s1 hrec =>
                injection hc with hc'
                obtain ⟨-, rfl⟩ := Eq.mp (Prod.mk.injEq ..) hc'
                have hnet : (0 : Int) ≤ net :=
                  calculate_fee_net_nonneg (s.feeBps.getD 0) a fee net hFee
                    (by omega) hfee
                simp [bondInvHolds, hnet]
  | topUp a =>
    obtain ⟨b0, hc⟩ := map_snd_eq_ok h
    simp only [top_up] at hc
    split at hc
    · cases hc
    next bond hbond =>
      split at hc
      · cases hc
      next nb hadd =>
        split at hc
        · cases hc
        next tok htok =>
          split at hc
          · cases hc
          next htr =>
            injection hc with hc'
            obtain ⟨-, rfl⟩ := Eq.mp (Prod.mk.injEq ..) hc'
            obtain ⟨rfl, -, -⟩ := checkedAddI128_eq_some hadd
            have hamt : (0 : Int) ≤ a := by
              simpa [tokenTransferOk] using htr
            simp only [bondInvHolds, hbond, decide_eq_true_eq] at hInv
            simp [bondInvHolds]
            omega
  | withdraw a =>
    obtain ⟨b0, hc⟩ := map_snd_eq_ok h
    simp only [withdraw_bond] at hc
    split at hc
    · cases hc
    next bond hbond =>
      split at hc
      · cases hc
      next hgate =>
        split at hc
        · cases hc
        next av hav =>
          split at hc
          · cases hc
          next hle =>
            split at hc
            · cases hc
            next tok htok =>
              split at hc
              · cases hc
              next htr =>
                split at hc
                · cases hc
                next nb hnb =>
                  injection hc with hc'
                  obtain ⟨-, rfl⟩ := Eq.mp (Prod.mk.injEq ..) hc'
                  simp [bondInvHolds]
                  split
                  · omega
                  · omega
  | withdrawEarly a =>
    obtain ⟨b0, hc⟩ := map_snd_eq_ok h
    simp only [withdraw_early] at hc
    split at hc
    · cases hc
    next bond hbond =>
      split at hc
      · cases hc
      next hend =>
        split at hc
        · cases hc
        next av hav =>
          split at hc
          · cases hc
          next hle =>
            split at hc
            case _ treas bps htre hbps =>
              split at hc
              · cases hc
              next pen hpen =>
                split at hc
                · cases hc
                next tok htok =>
                  split at hc
                  · cases hc
                  next netam hnet =>
                    split at hc
                    · cases hc
                    next htr1 =>
                      split at hc
                      · cases hc
                      next htr2 =>
                        split at hc
                        · cases hc
                        next nb hnb =>
                          split at hc
                          · cases hc
                          next hok =>
                            injection hc with hc'
                            obtain ⟨-, rfl⟩ := Eq.mp (Prod.mk.injEq ..) hc'
                            simp [bondInvHolds]
                            omega
            · cases hc
  | slash ad a =>
    obtain ⟨b0, hc⟩ := map_snd_eq_ok h
    simp only [slash_bond] at hc
    split at hc
    · cases hc
    next ad0 had =>
      split at hc
      · cases hc
      next hadm =>
        split at hc
        · cases hc
        next bond hbond =>
          split at hc
          · cases hc
          next hact =>
            split at hc
            · cases hc
            next ns hns =>
              split at hc
              · cases hc
              next hle =>
                obtain ⟨rfl, -, -⟩ := checkedAddI128_eq_some hns
                split at hc
                · next hcb =>
                  injection hc with hc'
                  obtain ⟨-, rfl⟩ := Eq.mp (Prod.mk.injEq ..) hc'
                  simp [bondInvHolds, release_lock]
                  omega
                · next c hcb =>
                  split at hc
                  · cases hc
                  next s2 hrun =>
                    injection hc with hc'
                    obtain ⟨-, rfl⟩ := Eq.mp (Prod.mk.injEq ..) hc'
                    simp only [benign_callback, Except.ok.injEq] at hrun
                    subst hrun
                    simp [bondInvHolds, release_lock]
                    omega
  | renew =>
    obtain ⟨b0, hc⟩ := map_snd_eq_ok h
    simp only [renew_if_rolling] at hc
    split at hc
    · cases hc
    next bond hbond =>
      simp only [bondInvHolds, hbond, decide_eq_true_eq] at hInv
      split at hc
      · injection hc with hc'
        obtain ⟨-, rfl⟩ := Eq.mp (Prod.mk.injEq ..) hc'
        simp only [bondInvHolds, hbond]
        simpa using hInv
      · split at hc
        · injection hc with hc'
          obtain ⟨-, rfl⟩ := Eq.mp (Prod.mk.injEq ..) hc'
          simp only [bondInvHolds, hbond]
          simpa using hInv
        · injection hc with hc'
          obtain ⟨-, rfl⟩ := Eq.mp (Prod.mk.injEq ..) hc'
          simp [bondInvHolds, apply_renewal]
          omega
  | extend a =>
    obtain ⟨b0, hc⟩ := map_snd_eq_ok h
    simp only [extend_duration] at hc
    split at hc
    · cases hc
    next bond hbond =>
      simp only [bondInvHolds, hbond, decide_eq_true_eq] at hInv
      split at hc
      · cases hc
      next hd =>
        split at hc
        · cases hc
        next hend =>
          injection hc with hc'
          obtain ⟨-, rfl⟩ := Eq.mp (Prod.mk.injEq ..) hc'
          simp [bondInvHolds]
          omega

/-- C1 witness: the invariant theorem applied to `withdraw(300)` on the
matured bond of 1000 with nothing slashed: the resulting stored bond
(bonded 700, slashed 0) satisfies the invariant. -/
theorem bond_invariant_preserved_witness :
    bondInvHolds { maturedStorage with
        bond := some { maturedBond with bonded_amount := 700 } } = true := by
  exact bond_invariant_preserved 10 maturedStorage _ (BondOp.withdraw 300)
    (by rfl) (by decide) (by rfl)

end Credence
